import Mathlib

/-!
Verification development for the PPO core algorithms
(`verl/trainer/ppo/core_algos.py`) and the multi-turn rollout state machine
(`verl/workers/rollout/vllm_rollout/vllm_async_engine.py`) of the Mini-o3
repository.

Tensors of shape `(bs, response_length)` are embedded as `List (List ℚ)`
(rows of rationals); float arithmetic is modelled exactly over `ℚ`.
External numeric library routines that compute transcendental values
(`torch.exp`, and the square root inside `torch.std`) are threaded through
as explicit function parameters `expFn`/`sqrtFn`: every claim proved here
holds for an arbitrary interpretation of those parameters.
Python exceptions (`ValueError`, `AssertionError`, `NotImplementedError`,
`TypeError`) are modelled with `Except String` / explicit error types.
-/

/-- Matrices of rationals: the embedding of 2-d float tensors. -/
abbrev Mat : Type := List (List ℚ)

/-- Elementwise negation of a matrix (embeds `-x` on a tensor). -/
def matNeg (a : Mat) : Mat := a.map (fun row => row.map (fun x => -x))

/-- Elementwise difference (embeds `x - y` on same-shaped tensors). -/
def matSub (a b : Mat) : Mat :=
  List.zipWith (List.zipWith (fun x y => x - y)) a b

/-- Elementwise product (embeds `x * y` on same-shaped tensors). -/
def matElemMul (a b : Mat) : Mat :=
  List.zipWith (List.zipWith (fun x y => x * y)) a b

/-- Elementwise sum (embeds `x + y` on same-shaped tensors). -/
def matAdd (a b : Mat) : Mat :=
  List.zipWith (List.zipWith (fun x y => x + y)) a b

/-- Elementwise maximum (embeds `torch.max(x, y)`). -/
def matMax2 (a b : Mat) : Mat := List.zipWith (List.zipWith max) a b

/-- Elementwise strict-greater indicator (embeds `torch.gt(x, y).float()`). -/
def gtInd (a b : Mat) : Mat :=
  List.zipWith (List.zipWith (fun x y => if y < x then (1 : ℚ) else 0)) a b

/-- Sum of all entries of a matrix. -/
def matSum (a : Mat) : ℚ := (a.map List.sum).sum

/-- Mean of a list of rationals (embeds `torch.mean` on a 1-d tensor;
division by zero follows the `ℚ` convention `x / 0 = 0`). -/
def listMean (l : List ℚ) : ℚ := l.sum / (l.length : ℚ)

/-- The last-dimension size of a tensor (embeds `t.shape[-1]`; for the
rectangular tensors of the source this is the length of the first row). -/
def matWidth (a : Mat) : ℕ := (a.headD []).length

/-- Clamp a rational into `[lo, hi]` (embeds `torch.clamp(x, lo, hi)`,
which computes `min(max(x, lo), hi)`). -/
def rclamp (x lo hi : ℚ) : ℚ := min (max x lo) hi

/-- Modelled from the spec: `verl.utils.torch_functional.masked_mean` is not
under `src/` (only its call sites are).  The spec describes it as the mean
over all masked elements, weighted by mask count: `sum(x*mask)/sum(mask)`. -/
def masked_mean (x mask : Mat) : ℚ := matSum (matElemMul x mask) / matSum mask

/-- Modelled from the spec: `verl.utils.torch_functional.masked_whiten` is not
under `src/` (only its call sites are).  The spec describes it as
"subtract masked mean, divide by masked standard deviation (using M),
globally over the batch".  The square root inside the standard deviation is
the external parameter `sqrtFn`. -/
def masked_whiten (sqrtFn : ℚ → ℚ) (x mask : Mat) : Mat :=
  let mu := masked_mean x mask
  let sigma := sqrtFn (masked_mean (x.map (fun row => row.map (fun a => (a - mu) ^ 2))) mask)
  x.map (fun row => row.map (fun a => (a - mu) / sigma))

/-- Monadic map over `Except`, embedding a Python loop that builds a list and
may raise: the first raised error aborts the whole computation. -/
def mapME {α β : Type} (f : α → Except String β) : List α → Except String (List β)
  | [] => .ok []
  | a :: l => do
    let b ← f a
    let bs ← mapME f l
    .ok (b :: bs)

/-! ## KL controllers (`core_algos.py` lines 28-67) -/

/-- Configuration node holding the `kl_ctrl` fields read by
`get_kl_controller` (`config...kl_ctrl.type/kl_coef/target_kl/horizon`). -/
structure KlCtrlConfig where
  type : String
  kl_coef : ℚ
  target_kl : ℚ
  horizon : ℚ
deriving DecidableEq, Repr

/-- The `config.critic` subtree consumed by `get_kl_controller`. -/
structure CriticConfig where
  kl_ctrl : KlCtrlConfig
deriving DecidableEq, Repr

/-- The trainer configuration consumed by `get_kl_controller`.  The source
reads both `config.critic.kl_ctrl` (selection and constructor arguments) and
`config.kl_ctrl` (the horizon assertion at line 60), so both attribute paths
are modelled as fields. -/
structure TrainerConfig where
  critic : CriticConfig
  kl_ctrl : KlCtrlConfig
deriving DecidableEq, Repr

/-- The two controller variants (`FixedKLController`, `AdaptiveKLController`),
carrying their constructor state. -/
inductive KLController where
  | fixed (kl_coef : ℚ)
  | adaptive (init_kl_coef : ℚ) (target_kl : ℚ) (horizon : ℚ)
deriving DecidableEq, Repr

/-- Fatal construction failures of `get_kl_controller`: the `assert` on the
horizon and the `ValueError` for an unknown policy name. -/
inductive ConfigError where
  | assertionError (msg : String)
  | valueError (msg : String)
deriving DecidableEq, Repr

/-- Embeds `get_kl_controller` (`core_algos.py` lines 56-67): dispatch on
`config.critic.kl_ctrl.type`; the adaptive branch asserts
`config.kl_ctrl.horizon > 0` before constructing from `config.critic.kl_ctrl`;
any other name raises `ValueError`. -/
def get_kl_controller (config : TrainerConfig) : Except ConfigError KLController :=
  if config.critic.kl_ctrl.type == "fixed" then
    .ok (.fixed config.critic.kl_ctrl.kl_coef)
  else if config.critic.kl_ctrl.type == "adaptive" then
    if config.kl_ctrl.horizon > 0 then
      .ok (.adaptive config.critic.kl_ctrl.kl_coef config.critic.kl_ctrl.target_kl
            config.critic.kl_ctrl.horizon)
    else .error (.assertionError "horizon must be larger than 0")
  else .error (.valueError "Unknown kl_ctrl type")

/-! ## GAE (`core_algos.py` lines 70-107) -/

/-- One row of the backward GAE recurrence (`core_algos.py` lines 94-103):
walking `t` from the last position down,
`delta = r_t + gamma * nextvalues - v_t` with `nextvalues = values[t+1]`
(or `0` past the end) and `lastgaelam = delta + gamma * lam * lastgaelam`.
The head of the recursive result is `lastgaelam` at `t+1`. -/
def gaeAdvRow (gamma lam : ℚ) : List ℚ → List ℚ → List ℚ
  | r :: rs, v :: vs =>
    let rest := gaeAdvRow gamma lam rs vs
    (r + gamma * vs.headD 0 - v + gamma * lam * rest.headD 0) :: rest
  | _, _ => []

/-- The pre-whitening advantages of GAE: the stacked rows of the backward
recurrence (`advantages` just before `masked_whiten` at line 106). -/
def gae_pre_advantages (token_level_rewards values : Mat) (gamma lam : ℚ) : Mat :=
  List.zipWith (fun r v => gaeAdvRow gamma lam r v) token_level_rewards values

/-- Embeds `compute_gae_advantage_return` (`core_algos.py` lines 70-107):
`returns = advantages + values` using the pre-whitening advantages, then
`advantages = masked_whiten(advantages, eos_mask)`. -/
def compute_gae_advantage_return (sqrtFn : ℚ → ℚ)
    (token_level_rewards values eos_mask : Mat) (gamma lam : ℚ) : Mat × Mat :=
  let advantages := gae_pre_advantages token_level_rewards values gamma lam
  let returns := matAdd advantages values
  (masked_whiten sqrtFn advantages eos_mask, returns)

/-! ## GRPO (`core_algos.py` lines 111-179) -/

/-- The per-group score list `id2score[idx]` (`core_algos.py` lines 144-148):
Python appends `scores[i]` to `id2score[index[i]]` for `i in range(bsz)`, so
group `idx` collects, in row order, the scores of the rows whose index is
`idx`. -/
def groupOf (index : List ℕ) (scores : List ℚ) (idx : ℕ) : List ℚ :=
  ((List.range scores.length).filter (fun i => index.getD i 0 == idx)).map
    (fun i => scores.getD i 0)

/-- Unbiased sample variance of a list (the quantity under the square root of
`torch.std`, which uses the Bessel correction `k - 1`). -/
def sampleVar (g : List ℚ) : ℚ :=
  let m := listMean g
  (g.map (fun x => (x - m) ^ 2)).sum / ((g.length : ℚ) - 1)

/-- Embeds the per-group statistics of GRPO (`core_algos.py` lines 152-160):
a singleton group gets `mean = 0, std = 1`; a larger group gets
`torch.mean` / `torch.std` of its scores; an empty group raises
`ValueError`. -/
def grpoGroupStats (sqrtFn : ℚ → ℚ) (g : List ℚ) : Except String (ℚ × ℚ) :=
  if g.length = 1 then .ok (0, 1)
  else if 1 < g.length then .ok (listMean g, sqrtFn (sampleVar g))
  else .error "no score in prompt index"

/-- Embeds the GRPO score transform (`core_algos.py` lines 164-173) for one
row with score `s` and group statistics `(mean, std)`:
the std-normalized branch, the importance-scaled branch (`v1`), and the
mean-only branch. -/
def grpoNewScore (epsilon scale : ℚ) (norm_adv_by_std_in_grpo : Bool)
    (norm_by_importance : String) (s mean std : ℚ) : ℚ :=
  if norm_adv_by_std_in_grpo then (s - mean) / (std + epsilon)
  else if norm_by_importance == "v1" then (s - mean) / ((scale / std) + epsilon)
  else s - mean

/-- The transformed scalar scores of GRPO, one per row (`scores` after the
loop at lines 164-173). -/
def grpoScores (sqrtFn : ℚ → ℚ) (epsilon scale : ℚ) (norm_adv_by_std_in_grpo : Bool)
    (norm_by_importance : String) (index : List ℕ) (scores : List ℚ) :
    Except String (List ℚ) :=
  mapME (fun i => do
      let g := groupOf index scores (index.getD i 0)
      let st ← grpoGroupStats sqrtFn g
      .ok (grpoNewScore epsilon scale norm_adv_by_std_in_grpo norm_by_importance
            (scores.getD i 0) st.1 st.2))
    (List.range scores.length)

/-- Embeds `compute_grpo_outcome_advantage` (`core_algos.py` lines 111-179):
row sums of `token_level_rewards` are the scalar scores, they are normalized
per group, broadcast across the row and multiplied by `eos_mask`; the same
tensor is returned as advantages and returns. -/
def compute_grpo_outcome_advantage (sqrtFn : ℚ → ℚ)
    (token_level_rewards eos_mask : Mat) (index : List ℕ)
    (epsilon : ℚ) (norm_adv_by_std_in_grpo : Bool) (norm_by_importance : String)
    (scale : ℚ) : Except String (Mat × Mat) := do
  let scores := token_level_rewards.map List.sum
  let newScores ← grpoScores sqrtFn epsilon scale norm_adv_by_std_in_grpo
    norm_by_importance index scores
  let out := List.zipWith (fun s mrow => mrow.map (fun m => s * m)) newScores eos_mask
  .ok (out, out)

/-! ## RLOO (`core_algos.py` lines 182-224) -/

/-- Embeds the per-group mean of RLOO (`core_algos.py` lines 210-216):
a singleton group gets `mean = 0`; a larger group gets `torch.mean`; an
empty group raises `ValueError`. -/
def rlooGroupMean (g : List ℚ) : Except String ℚ :=
  if g.length = 1 then .ok 0
  else if 1 < g.length then .ok (listMean g)
  else .error "no score in prompt index"

/-- The transformed scalar scores of RLOO, one per row (`core_algos.py`
lines 217-221): for a group of size `k > 1` the leave-one-out rescaling
`s * k/(k-1) - mean * k/(k-1)`; a singleton row keeps its raw score. -/
def rlooScores (index : List ℕ) (scores : List ℚ) : Except String (List ℚ) :=
  mapME (fun i => do
      let g := groupOf index scores (index.getD i 0)
      let mean ← rlooGroupMean g
      let k := g.length
      .ok (if 1 < k then
            scores.getD i 0 * k / ((k : ℚ) - 1) - mean * k / ((k : ℚ) - 1)
          else scores.getD i 0))
    (List.range scores.length)

/-- Embeds `compute_rloo_outcome_advantage` (`core_algos.py` lines 182-224).
The `epsilon` parameter of the source is accepted and, as in the source,
never used. -/
def compute_rloo_outcome_advantage (token_level_rewards eos_mask : Mat)
    (index : List ℕ) (epsilon : ℚ) : Except String (Mat × Mat) := do
  let _ := epsilon
  let scores := token_level_rewards.map List.sum
  let newScores ← rlooScores index scores
  let out := List.zipWith (fun s mrow => mrow.map (fun m => s * m)) newScores eos_mask
  .ok (out, out)

/-! ## REINFORCE++ (`core_algos.py` lines 227-258) -/

/-- One row of the REINFORCE++ backward pass (`core_algos.py` lines 249-253):
`running = r_t + gamma * running` is recorded at `t`, then multiplied by the
mask at `t`.  The pair is `(returns row, running value flowing further
left)`. -/
def rppRetRow (gamma : ℚ) : List ℚ → List ℚ → List ℚ × ℚ
  | [], _ => ([], 0)
  | r :: rs, ms =>
    let p := rppRetRow gamma rs ms.tail
    let running := r + gamma * p.2
    (running :: p.1, running * ms.headD 0)

/-- Embeds `compute_reinforce_plus_plus_outcome_advantage`
(`core_algos.py` lines 227-258): discounted running returns with reset at
mask boundaries, then `advantages = masked_whiten(returns, eos_mask) *
eos_mask`. -/
def compute_reinforce_plus_plus_outcome_advantage (sqrtFn : ℚ → ℚ)
    (token_level_rewards eos_mask : Mat) (gamma : ℚ) : Mat × Mat :=
  let returns := List.zipWith (fun r m => (rppRetRow gamma r m).1)
    token_level_rewards eos_mask
  let advantages := matElemMul (masked_whiten sqrtFn returns eos_mask) eos_mask
  (advantages, returns)

/-! ## ReMax (`core_algos.py` lines 261-289) -/

/-- Suffix sums of a list: embeds `t.flip(-1).cumsum(-1).flip(-1)`. -/
def reverseCumsum : List ℚ → List ℚ
  | [] => []
  | a :: t =>
    let rest := reverseCumsum t
    (a + rest.headD 0) :: rest

/-- Embeds `compute_remax_outcome_advantage` (`core_algos.py` lines 261-289):
`returns` is the reverse cumulative sum of the masked rewards and
`advantages = returns - baseline.tile * eos_mask`. -/
def compute_remax_outcome_advantage (token_level_rewards : Mat)
    (reward_baselines : List ℚ) (eos_mask : Mat) : Mat × Mat :=
  let returns := List.zipWith (fun r m => reverseCumsum (List.zipWith (fun x y => x * y) r m))
    token_level_rewards eos_mask
  let advantages := List.zipWith (fun p b =>
      List.zipWith (fun x y => x - y) p.1 (p.2.map (fun m => b * m)))
    (returns.zip eos_mask) reward_baselines
  (advantages, returns)

/-! ## Loss aggregation (`core_algos.py` lines 297-350) -/

/-- Embeds `agg_loss` (`core_algos.py` lines 297-350): reduce a per-token
loss matrix to a scalar under the named mode; an unknown mode raises
`ValueError`. -/
def agg_loss (loss_mat loss_mask : Mat) (loss_agg_mode : String)
    (scale : ℚ) (eps : ℚ) : Except String ℚ :=
  if loss_agg_mode == "token-mean" then
    .ok (masked_mean loss_mat loss_mask)
  else if loss_agg_mode == "seq-mean-token-sum" then
    .ok (listMean ((matElemMul loss_mat loss_mask).map List.sum))
  else if loss_agg_mode == "seq-mean-token-mean" then
    .ok (listMean (List.zipWith (fun lrow mrow =>
      (List.zipWith (fun x y => x * y) lrow mrow).sum / (mrow.sum + eps))
      loss_mat loss_mask))
  else if loss_agg_mode == "seq-mean-token-sum-norm" then
    .ok (listMean ((matElemMul loss_mat loss_mask).map
      (fun row => row.sum / (matWidth loss_mask : ℚ))))
  else if loss_agg_mode == "seq-mean-token-sum-norm-scaled" then
    .ok (listMean ((matElemMul loss_mat loss_mask).map
      (fun row => row.sum / (matWidth loss_mask : ℚ) * scale)))
  else .error "Invalid loss_agg_mode"

/-! ## Policy losses (`core_algos.py` lines 353-460) -/

/-- Embeds `compute_policy_loss` (`core_algos.py` lines 409-460):
`ratio = exp(log_prob - old_log_prob)`, the pessimistic maximum of the
unclipped and clipped candidate losses is aggregated with `agg_loss`, and
the clip fraction and KL metric are masked means.  `None` clip bounds fall
back to the shared `cliprange` (lines 449-452); if a bound is still `None`,
`1.0 - cliprange_low` raises `TypeError` (modelled as an error). -/
def compute_policy_loss (expFn : ℚ → ℚ)
    (old_log_prob log_prob advantages eos_mask : Mat)
    (cliprange cliprange_low cliprange_high : Option ℚ)
    (loss_agg_mode : String) (scale : ℚ) : Except String (ℚ × ℚ × ℚ) :=
  let negative_approx_kl := matSub log_prob old_log_prob
  let ratioMat := negative_approx_kl.map (fun row => row.map expFn)
  let ppo_kl := masked_mean (matNeg negative_approx_kl) eos_mask
  let pg_losses := matElemMul (matNeg advantages) ratioMat
  let lowOpt := match cliprange_low with | none => cliprange | some c => some c
  let highOpt := match cliprange_high with | none => cliprange | some c => some c
  match lowOpt, highOpt with
  | some lo, some hi =>
    let pg_losses2 := matElemMul (matNeg advantages)
      (ratioMat.map (fun row => row.map (fun r => rclamp r (1 - lo) (1 + hi))))
    match agg_loss (matMax2 pg_losses pg_losses2) eos_mask loss_agg_mode scale (1/1000000) with
    | .ok pg_loss =>
      .ok (pg_loss, masked_mean (gtInd pg_losses2 pg_losses) eos_mask, ppo_kl)
    | .error e => .error e
  | _, _ => .error "TypeError: unsupported operand type for float and NoneType"

/-- Broadcast product of a `(bs, T)` tensor with a 1-d tensor, embedding
`mat * vec` under torch right-aligned broadcasting: the vector is matched
against the last dimension (so it must equal the row length, or have length
one); other shapes raise a runtime shape error. -/
def torchMulRowVec (mat : Mat) (vec : List ℚ) : Except String Mat :=
  if mat.all (fun row => row.length == vec.length) then
    .ok (mat.map (fun row => List.zipWith (fun x y => x * y) row vec))
  else if vec.length == 1 then
    .ok (mat.map (fun row => row.map (fun x => x * vec.headD 0)))
  else .error "RuntimeError: tensor shapes cannot be broadcast"

/-- Embeds `compute_policy_loss_gspo` (`core_algos.py` lines 353-406):
a sequence-level importance ratio from length-normalized summed
log-probs, the same clipped objective, and a `[-20, 20]`-clamped KL metric.
`None` clip bounds fall back to `cliprange` first (lines 380-383); the
products `-advantages * seq_ratio` follow torch broadcasting. -/
def compute_policy_loss_gspo (expFn : ℚ → ℚ)
    (old_log_prob log_prob advantages response_mask : Mat)
    (loss_agg_mode : String)
    (cliprange cliprange_low cliprange_high : Option ℚ)
    (eps : ℚ) : Except String (ℚ × ℚ × ℚ) :=
  let lowOpt := match cliprange_low with | none => cliprange | some c => some c
  let highOpt := match cliprange_high with | none => cliprange | some c => some c
  let normalized_seq_log_prob := List.zipWith (fun lpRow mRow =>
      (List.zipWith (fun x y => x * y) lpRow mRow).sum / (mRow.sum + eps))
    log_prob response_mask
  let normalized_old_seq_log_prob := List.zipWith (fun lpRow mRow =>
      (List.zipWith (fun x y => x * y) lpRow mRow).sum / (mRow.sum + eps))
    old_log_prob response_mask
  let seqRatioVec := (List.zipWith (fun a b => a - b)
    normalized_seq_log_prob normalized_old_seq_log_prob).map expFn
  match torchMulRowVec (matNeg advantages) seqRatioVec with
  | .error e => .error e
  | .ok pg_losses1 =>
    match lowOpt, highOpt with
    | some lo, some hi =>
      match torchMulRowVec (matNeg advantages)
          (seqRatioVec.map (fun r => rclamp r (1 - lo) (1 + hi))) with
      | .error e => .error e
      | .ok pg_losses2 =>
        match agg_loss (matMax2 pg_losses1 pg_losses2) response_mask loss_agg_mode 1 (1/1000000) with
        | .error e => .error e
        | .ok pg_loss =>
          let pg_clipfrac := masked_mean (gtInd pg_losses2 pg_losses1) response_mask
          let clamped := (matSub log_prob old_log_prob).map
            (fun row => row.map (fun x => rclamp x (-20) 20))
          .ok (pg_loss, pg_clipfrac, masked_mean (matNeg clamped) response_mask)
    | _, _ => .error "TypeError: unsupported operand type for float and NoneType"

/-! ## KL penalty (`core_algos.py` lines 508-541) -/

/-- Embeds `kl_penalty` (`core_algos.py` lines 508-541): elementwise penalty
selected by name; `low_var_kl` computes
`clamp(exp(ref - logp) - (ref - logp) - 1, -10, 10)`; `full` and unknown
names raise `NotImplementedError`. -/
def kl_penalty (expFn : ℚ → ℚ) (logprob ref_logprob : Mat) (kind : String) :
    Except String Mat :=
  if kind == "kl" then .ok (matSub logprob ref_logprob)
  else if kind == "abs" then
    .ok ((matSub logprob ref_logprob).map (fun row => row.map (fun x => |x|)))
  else if kind == "mse" then
    .ok ((matSub logprob ref_logprob).map (fun row => row.map (fun x => 1/2 * x ^ 2)))
  else if kind == "low_var_kl" then
    .ok (List.zipWith (List.zipWith (fun lp rf =>
      rclamp (expFn (rf - lp) - (rf - lp) - 1) (-10) 10)) logprob ref_logprob)
  else if kind == "full" then .error "NotImplementedError"
  else .error "NotImplementedError"

/-! ## Rollout state machine (`vllm_async_engine.py` lines 519-733)

The per-request mutable rollout state and the tool-call handling of
`_async_rollout_a_request`.  External collaborators (the generation engine,
tokenizer, regex matching, image cropping and resizing) are modelled as the
data they hand back to the state machine: a `GenEvent` per generation round
carries the emitted token ids and, for a tool-calling round, the outcome of
`process_tool_call`'s external steps (the encoded next-turn message and, on
success, the cropped/resized images and the image token count). -/

/-- The mutable per-request rollout state threaded through
`_async_rollout_a_request`: the vLLM token buffer
(`vllm_input['prompt_token_ids']`), the image list
(`vllm_input['multi_modal_data']['image']`, abstract handles), the
observation and image-size histories, the per-turn response-mask fragments,
and the running context length. -/
structure RolloutState where
  prompt_token_ids : List ℕ
  images : List ℕ
  observations_list : List ℕ
  image_size_used_list : List (ℕ × ℕ)
  multi_turn_response_mask : List (List ℚ)
  context_length : ℤ
deriving DecidableEq, Repr

/-- The externally produced outcome of one `process_tool_call` invocation
(`vllm_async_engine.py` lines 519-581): either a successful grounding with
a cropped observation image, its resized version and size, the image token
count of the resized image, and the encoded next-turn prompt ids; or a
parse/grounding failure with the encoded synthetic error message. -/
inductive ToolOutcome where
  | imageObs (cropped resized : ℕ) (resizedSize : ℕ × ℕ) (imageTokenNum : ℤ)
      (nextTurnIds : List ℕ)
  | errorObs (nextTurnIds : List ℕ)
deriving DecidableEq, Repr

/-- Embeds the state mutations and return value of `process_tool_call`
(`vllm_async_engine.py` lines 519-581): on an image observation it appends
the observation, the next-turn prompt ids, the resized image and its size,
and a zero mask fragment, returning `len(ids) + image_token_num - 1`;
on an error observation it appends only the prompt ids and a zero mask
fragment, returning `len(ids)`.  The boolean records
`isinstance(tool_outputs, Image.Image)`. -/
def process_tool_call (st : RolloutState) (outcome : ToolOutcome) :
    RolloutState × ℤ × Bool :=
  match outcome with
  | .imageObs cropped resized size itn ids =>
    ({ st with
        observations_list := st.observations_list ++ [cropped]
        prompt_token_ids := st.prompt_token_ids ++ ids
        image_size_used_list := st.image_size_used_list ++ [size]
        images := st.images ++ [resized]
        multi_turn_response_mask :=
          st.multi_turn_response_mask ++ [List.replicate ids.length (0 : ℚ)] },
      ((ids.length : ℤ) + itn - 1, true))
  | .errorObs ids =>
    ({ st with
        prompt_token_ids := st.prompt_token_ids ++ ids
        multi_turn_response_mask :=
          st.multi_turn_response_mask ++ [List.replicate ids.length (0 : ℚ)] },
      ((ids.length : ℤ), false))

/-- One generation-engine round, as seen by the state machine
(`vllm_async_engine.py` lines 670-702): the emitted token ids, and either a
detected `<grounding>` tool call together with its `process_tool_call`
outcome, or a final round with the externally determined finish-reason and
answer-tag facts. -/
inductive GenEvent where
  | toolCall (tokenIds : List ℕ) (outcome : ToolOutcome)
  | final (tokenIds : List ℕ) (lengthFinish : Bool) (hasAnswerTag : Bool)
deriving DecidableEq, Repr

/-- Embeds lines 682-692: the emitted ids are filtered to `<= 151664`,
appended to the token buffer with a ones mask fragment, and the context
length grows by the response length. -/
def appendAssistant (st : RolloutState) (tokenIds : List ℕ) : RolloutState :=
  let response := tokenIds.filter (fun t => t ≤ 151664)
  { st with
      prompt_token_ids := st.prompt_token_ids ++ response
      multi_turn_response_mask :=
        st.multi_turn_response_mask ++ [List.replicate response.length (1 : ℚ)]
      context_length := st.context_length + response.length }

/-- Terminal summary of a rollout: final state plus the `exceed` and `void`
termination flags (lines 658-659, 795, 798). -/
structure RolloutOutcome where
  state : RolloutState
  exceed : Bool
  void : Bool
deriving DecidableEq, Repr

/-- Embeds the generation loop of `_async_rollout_a_request`
(`vllm_async_engine.py` lines 660-733) driven by a list of engine rounds:
each round appends the assistant response; a tool-calling round enforces the
image budget, the last-round budget and the pre-call context budget
(terminating `exceed` without touching the tool state), runs
`process_tool_call`, adds its context cost, and on reaching the reserved
margin rolls the speculative mutations back (restore the token buffer, pop
the appended image, size, observation and mask fragment) before terminating
`exceed`; a final round terminates `void` when the finish reason is LENGTH
or the answer tag is missing. -/
def rolloutLoop (maxTotalResponseLength : ℤ) (maxImageNum : ℕ) (maxIterations : ℕ) :
    ℕ → List GenEvent → RolloutState → RolloutOutcome
  | _, [], st => ⟨st, false, false⟩
  | currentIteration, ev :: rest, st =>
    if currentIteration < maxIterations then
      match ev with
      | .final ids lengthFinish hasAnswerTag =>
        ⟨appendAssistant st ids, false, lengthFinish || !hasAnswerTag⟩
      | .toolCall ids outcome =>
        let st1 := appendAssistant st ids
        if maxImageNum ≤ st1.images.length ∨ currentIteration = maxIterations - 1 then
          ⟨st1, true, false⟩
        else if maxTotalResponseLength - 2000 ≤ st1.context_length then
          ⟨st1, true, false⟩
        else
          let old_prompt_token_ids := st1.prompt_token_ids
          let r := process_tool_call st1 outcome
          let st2 := { r.1 with context_length := st1.context_length + r.2.1 }
          if maxTotalResponseLength - 2000 ≤ st2.context_length then
            ⟨{ st2 with
                prompt_token_ids := old_prompt_token_ids
                images := if r.2.2 then st2.images.dropLast else st2.images
                image_size_used_list :=
                  if r.2.2 then st2.image_size_used_list.dropLast
                  else st2.image_size_used_list
                observations_list :=
                  if r.2.2 then st2.observations_list.dropLast
                  else st2.observations_list
                multi_turn_response_mask := st2.multi_turn_response_mask.dropLast },
              true, false⟩
          else
            rolloutLoop maxTotalResponseLength maxImageNum maxIterations
              (currentIteration + 1) rest st2
    else ⟨st, false, false⟩

/-! ## General helper lemmas -/

deriving instance DecidableEq for Except

/-- The default-valued head of a list is its default-valued entry at 0. -/
theorem headD_eq_getD (l : List ℚ) : l.headD 0 = l.getD 0 0 := by
  cases l <;> rfl

/-- Every element of a `zipWith` is the image of a pair of elements. -/
theorem exists_of_mem_zipWith {α β γ : Type} {f : α → β → γ} {c : γ} :
    ∀ {as : List α} {bs : List β}, c ∈ List.zipWith f as bs → ∃ a b, c = f a b := by
  intro as
  induction as with
  | nil => intro bs h; simp at h
  | cons a as ih =>
    intro bs h
    cases bs with
    | nil => simp at h
    | cons b bs =>
      rcases List.mem_cons.mp h with h | h
      · exact ⟨a, b, h⟩
      · exact ih h

/-- Clamping lands in the interval whenever the interval is nonempty. -/
theorem rclamp_bounds (x lo hi : ℚ) (h : lo ≤ hi) :
    lo ≤ rclamp x lo hi ∧ rclamp x lo hi ≤ hi := by
  unfold rclamp
  exact ⟨le_min (le_max_right x lo) h, min_le_right _ _⟩

/-- Mapping an all-`ok` step over a list collects the results. -/
theorem mapME_ok {α β : Type} (f : α → Except String β) (g : α → β) :
    ∀ (l : List α), (∀ a ∈ l, f a = .ok (g a)) → mapME f l = .ok (l.map g) := by
  intro l
  induction l with
  | nil => intro _; rfl
  | cons a l ih =>
    intro h
    show (f a >>= fun b => mapME f l >>= fun bs => Except.ok (b :: bs)) = _
    rw [h a (List.mem_cons_self a l), ih (fun x hx => h x (List.mem_cons_of_mem a hx))]
    rfl

/-! ## C8: KL controller construction errors -/

/-- C8: constructing the KL controller through `get_kl_controller` fails with
the horizon assertion (a configuration error) when the adaptive variant is
selected with horizon ≤ 0, and fails with `ValueError` (an
invalid-configuration error) for any policy name other than `fixed` and
`adaptive`.  The hypothesis `halias` identifies the horizon read by the
assertion (`config.kl_ctrl.horizon`, line 60) with the horizon used for
construction (`config.critic.kl_ctrl.horizon`). -/
theorem c8_kl_controller_errors (cfg : TrainerConfig)
    (halias : cfg.kl_ctrl.horizon = cfg.critic.kl_ctrl.horizon) :
    (cfg.critic.kl_ctrl.type = "adaptive" → cfg.critic.kl_ctrl.horizon ≤ 0 →
      get_kl_controller cfg =
        .error (.assertionError "horizon must be larger than 0")) ∧
    (cfg.critic.kl_ctrl.type ≠ "fixed" → cfg.critic.kl_ctrl.type ≠ "adaptive" →
      get_kl_controller cfg = .error (.valueError "Unknown kl_ctrl type")) := by
  constructor
  · intro hty hh
    have hno : ¬ (cfg.kl_ctrl.horizon > 0) := by rw [halias]; exact not_lt.mpr hh
    simp [get_kl_controller, hty, hno]
  · intro h1 h2
    simp [get_kl_controller, h1, h2]

/-- Witness for C8 at two concrete configurations: an adaptive policy with
horizon 0 hits the assertion, and an unknown policy name hits the
`ValueError`. -/
theorem c8_kl_controller_errors_witness :
    get_kl_controller ⟨⟨⟨"adaptive", 1, 1, 0⟩⟩, ⟨"adaptive", 1, 1, 0⟩⟩ =
      .error (.assertionError "horizon must be larger than 0") ∧
    get_kl_controller ⟨⟨⟨"bogus", 1, 1, 10⟩⟩, ⟨"bogus", 1, 1, 10⟩⟩ =
      .error (.valueError "Unknown kl_ctrl type") :=
  ⟨(c8_kl_controller_errors ⟨⟨⟨"adaptive", 1, 1, 0⟩⟩, ⟨"adaptive", 1, 1, 0⟩⟩ rfl).1
      rfl (by norm_num),
    (c8_kl_controller_errors ⟨⟨⟨"bogus", 1, 1, 10⟩⟩, ⟨"bogus", 1, 1, 10⟩⟩ rfl).2
      (by decide) (by decide)⟩

/-! ## C9: low-variance KL penalty is clamped -/

/-- C9: for every pair of log-prob inputs (and every interpretation of
`torch.exp`), `kl_penalty` with kind `low_var_kl` returns
`exp(ref - logp) - (ref - logp) - 1` clamped elementwise into `[-10, 10]`,
and every entry of the output lies in that interval. -/
theorem c9_low_var_kl_clamped (expFn : ℚ → ℚ) (logprob ref_logprob : Mat) :
    kl_penalty expFn logprob ref_logprob "low_var_kl" =
      .ok (List.zipWith (List.zipWith (fun lp rf =>
        rclamp (expFn (rf - lp) - (rf - lp) - 1) (-10) 10)) logprob ref_logprob) ∧
    (∀ m, kl_penalty expFn logprob ref_logprob "low_var_kl" = .ok m →
      ∀ row ∈ m, ∀ x ∈ row, -10 ≤ x ∧ x ≤ 10) := by
  refine ⟨rfl, ?_⟩
  intro m hm row hrow x hx
  rw [show kl_penalty expFn logprob ref_logprob "low_var_kl" =
      .ok (List.zipWith (List.zipWith (fun lp rf =>
        rclamp (expFn (rf - lp) - (rf - lp) - 1) (-10) 10)) logprob ref_logprob)
      from rfl] at hm
  injection hm with hm
  subst hm
  rcases exists_of_mem_zipWith hrow with ⟨lpRow, rfRow, hr⟩
  subst hr
  rcases exists_of_mem_zipWith hx with ⟨lp, rf, hxval⟩
  subst hxval
  exact rclamp_bounds _ (-10) 10 (by norm_num)

/-- Witness for C9: with the exponential interpreted as the constant 1000 the
unclamped value 994 is clamped to the upper bound 10, which lies in
`[-10, 10]`. -/
theorem c9_low_var_kl_clamped_witness :
    (-10 ≤ (10 : ℚ) ∧ (10 : ℚ) ≤ 10) := by
  have hm : kl_penalty (fun _ => (1000 : ℚ)) [[0]] [[5]] "low_var_kl" = .ok [[10]] := by
    simp [kl_penalty, rclamp]
    norm_num [min_def, max_def]
  exact (c9_low_var_kl_clamped (fun _ => 1000) [[0]] [[5]]).2
    [[(10 : ℚ)]] hm [(10 : ℚ)] (by simp) 10 (by simp)

/-! ## C10: clip-range fallback and failure on missing bounds -/

/-- Truth value of an `Except` computation having succeeded. -/
def exceptOk {α : Type} : Except String α → Bool
  | .ok _ => true
  | .error _ => false

/-- C10: in both `compute_policy_loss` and `compute_policy_loss_gspo` an
unspecified (`None`) `cliprange_low`/`cliprange_high` falls back to the
shared `cliprange` (the call computes exactly what explicit symmetric bounds
compute), and with all three of `cliprange_low`, `cliprange_high`,
`cliprange` equal to `None` both functions fail instead of returning an
unclipped loss. -/
theorem c10_cliprange_fallback (expFn : ℚ → ℚ) (old_log_prob log_prob advantages mask : Mat)
    (c : ℚ) (mode : String) (s eps : ℚ) :
    (compute_policy_loss expFn old_log_prob log_prob advantages mask
        (some c) none none mode s =
      compute_policy_loss expFn old_log_prob log_prob advantages mask
        none (some c) (some c) mode s) ∧
    (exceptOk (compute_policy_loss expFn old_log_prob log_prob advantages mask
        none none none mode s) = false) ∧
    (compute_policy_loss_gspo expFn old_log_prob log_prob advantages mask
        mode (some c) none none eps =
      compute_policy_loss_gspo expFn old_log_prob log_prob advantages mask
        mode none (some c) (some c) eps) ∧
    (exceptOk (compute_policy_loss_gspo expFn old_log_prob log_prob advantages mask
        mode none none none eps) = false) := by
  refine ⟨rfl, rfl, rfl, ?_⟩
  simp only [compute_policy_loss_gspo]
  split <;> rfl

/-! ## C3: budget exceed terminates the request with a rollback -/

/-- C3: in the rollout loop, when a tool call passes the image/round and
pre-call context budgets but its appended observation brings the context
length within the reserved 2000-token margin of
`max_total_response_length`, the request terminates with `exceed = true`
and the speculative mutations of `process_tool_call` are rolled back: the
resulting state equals the pre-tool-call state (the state after appending
the assistant response) with only the context length advanced — in
particular the token buffer, image list, image-size list, observation list
and mask fragments are all restored. -/
theorem c3_exceed_rollback (maxTotal : ℤ) (maxImg maxIter cur : ℕ)
    (st st1 : RolloutState) (ids : List ℕ) (outcome : ToolOutcome)
    (rest : List GenEvent)
    (hst1 : st1 = appendAssistant st ids)
    (hiter : cur < maxIter)
    (hlast : cur ≠ maxIter - 1)
    (himg : st1.images.length < maxImg)
    (hctx : st1.context_length < maxTotal - 2000)
    (hpost : maxTotal - 2000 ≤
      st1.context_length + (process_tool_call st1 outcome).2.1) :
    rolloutLoop maxTotal maxImg maxIter cur (GenEvent.toolCall ids outcome :: rest) st =
      ⟨{ st1 with context_length :=
            st1.context_length + (process_tool_call st1 outcome).2.1 },
        true, false⟩ ∧
    (rolloutLoop maxTotal maxImg maxIter cur
        (GenEvent.toolCall ids outcome :: rest) st).state.prompt_token_ids =
      st1.prompt_token_ids ∧
    (rolloutLoop maxTotal maxImg maxIter cur
        (GenEvent.toolCall ids outcome :: rest) st).state.prompt_token_ids.length =
      st1.prompt_token_ids.length ∧
    (rolloutLoop maxTotal maxImg maxIter cur
        (GenEvent.toolCall ids outcome :: rest) st).exceed = true := by
  have hmain : rolloutLoop maxTotal maxImg maxIter cur
      (GenEvent.toolCall ids outcome :: rest) st =
      ⟨{ st1 with context_length :=
            st1.context_length + (process_tool_call st1 outcome).2.1 },
        true, false⟩ := by
    rw [rolloutLoop]
    rw [if_pos hiter]
    rw [← hst1]
    rw [if_neg (by push_neg; exact ⟨himg, hlast⟩)]
    rw [if_neg (not_le.mpr hctx)]
    rw [if_pos hpost]
    cases outcome with
    | imageObs cropped resized size itn tids =>
      simp [process_tool_call, List.dropLast_concat]
    | errorObs tids =>
      simp [process_tool_call, List.dropLast_concat]
  refine ⟨hmain, ?_, ?_, ?_⟩ <;> rw [hmain]

/-- Witness for C3 at a concrete request: max total length 3000 (margin
boundary 1000), context 902 after the assistant turn, a tool call whose
observation costs 249 tokens crosses the margin; the loop terminates
`exceed` with the buffers rolled back. -/
theorem c3_exceed_rollback_witness :
    rolloutLoop 3000 2 5 0
        (GenEvent.toolCall [1, 2]
          (ToolOutcome.imageObs 8 9 (4, 4) 200 (List.replicate 50 3)) :: [])
        ⟨[10, 11], [7], [7], [(5, 5)], [[0, 0]], 900⟩ =
      ⟨⟨[10, 11, 1, 2], [7], [7], [(5, 5)], [[0, 0], [1, 1]], 1151⟩,
        true, false⟩ := by
  have h := (c3_exceed_rollback 3000 2 5 0
      ⟨[10, 11], [7], [7], [(5, 5)], [[0, 0]], 900⟩
      ⟨[10, 11, 1, 2], [7], [7], [(5, 5)], [[0, 0], [1, 1]], 902⟩
      [1, 2] (ToolOutcome.imageObs 8 9 (4, 4) 200 (List.replicate 50 3)) []
      (by simp [appendAssistant])
      (by decide) (by decide) (by decide) (by decide)
      (by simp [process_tool_call])).1
  rw [h]
  simp [process_tool_call]

/-! ## C7: aggregation-mode coincidences on full masks -/

/-- Multiplying a row elementwise with a ones-row of its own length is the
identity. -/
theorem zipWith_mul_replicate_one :
    ∀ (row : List ℚ) (n : ℕ), row.length = n →
      List.zipWith (fun x y => x * y) row (List.replicate n 1) = row := by
  intro row
  induction row with
  | nil => intro n _; simp
  | cons a l ih =>
    intro n hn
    cases n with
    | zero => simp at hn
    | succ k =>
      simp only [List.replicate, List.zipWith_cons_cons, mul_one]
      rw [ih k (by simpa using hn)]

/-- Multiplying a matrix elementwise with an all-ones mask of its own shape
is the identity. -/
theorem matElemMul_ones :
    ∀ (L : Mat) (m n : ℕ), L.length = m → (∀ row ∈ L, row.length = n) →
      matElemMul L (List.replicate m (List.replicate n 1)) = L := by
  intro L
  induction L with
  | nil => intro m n _ _; simp [matElemMul]
  | cons row L ih =>
    intro m n hm hrows
    cases m with
    | zero => simp at hm
    | succ k =>
      simp only [matElemMul, List.replicate, List.zipWith_cons_cons]
      rw [zipWith_mul_replicate_one row n (hrows row (List.mem_cons_self row L))]
      have htail := ih k n (by simpa using hm)
        (fun r hr => hrows r (List.mem_cons_of_mem row hr))
      rw [show List.zipWith (List.zipWith fun x y => x * y) L
          (List.replicate k (List.replicate n 1)) =
          matElemMul L (List.replicate k (List.replicate n 1)) from rfl, htail]

/-- The total of an all-ones `m × n` mask is `m * n`. -/
theorem matSum_ones (m n : ℕ) :
    matSum (List.replicate m (List.replicate n (1 : ℚ))) = (m : ℚ) * n := by
  unfold matSum
  rw [List.map_replicate, List.sum_replicate, List.sum_replicate]
  simp [nsmul_eq_mul]

/-- Sums of rows divided by a common constant sum to the divided total. -/
theorem sum_map_div (L : Mat) (c : ℚ) :
    (L.map (fun row => row.sum / c)).sum = matSum L / c := by
  induction L with
  | nil => simp [matSum]
  | cons row L ih =>
    simp only [List.map_cons, List.sum_cons, matSum] at ih ⊢
    rw [ih, add_div]

/-- C7: `agg_loss` with mode `token-mean` on an all-ones mask is the plain
elementwise mean of the loss matrix, and mode `seq-mean-token-sum-norm`
coincides with `token-mean` when every row has the full common length `n`
(which is then also the fixed normalizer, the mask width). -/
theorem c7_agg_loss_token_mean (L : Mat) (m n : ℕ) (s e : ℚ)
    (hm : 0 < m) (hn : 0 < n)
    (hL : L.length = m) (hrows : ∀ row ∈ L, row.length = n) :
    agg_loss L (List.replicate m (List.replicate n 1)) "token-mean" s e =
      .ok (matSum L / ((m : ℚ) * n)) ∧
    agg_loss L (List.replicate m (List.replicate n 1)) "seq-mean-token-sum-norm" s e =
      agg_loss L (List.replicate m (List.replicate n 1)) "token-mean" s e := by
  have hmul := matElemMul_ones L m n hL hrows
  have hwidth : matWidth (List.replicate m (List.replicate n (1 : ℚ))) = n := by
    unfold matWidth
    cases m with
    | zero => omega
    | succ k => simp [List.replicate]
  have htm : agg_loss L (List.replicate m (List.replicate n 1)) "token-mean" s e =
      .ok (matSum L / ((m : ℚ) * n)) := by
    simp only [agg_loss, show ("token-mean" == "token-mean") = true from rfl, if_true]
    rw [masked_mean, hmul, matSum_ones]
  refine ⟨htm, ?_⟩
  rw [htm]
  simp only [agg_loss, show ("seq-mean-token-sum-norm" == "token-mean") = false from rfl,
    show ("seq-mean-token-sum-norm" == "seq-mean-token-sum") = false from rfl,
    show ("seq-mean-token-sum-norm" == "seq-mean-token-mean") = false from rfl,
    show ("seq-mean-token-sum-norm" == "seq-mean-token-sum-norm") = true from rfl,
    Bool.false_eq_true, if_false, if_true]
  rw [hmul, hwidth, listMean, sum_map_div]
  rw [List.length_map, hL]
  rw [div_div, mul_comm (n : ℚ) (m : ℚ)]

/-- Witness for C7 on a concrete 2×2 loss matrix with a full mask. -/
theorem c7_agg_loss_token_mean_witness :
    agg_loss [[1, 2], [3, 4]] (List.replicate 2 (List.replicate 2 1)) "token-mean" 1 1 =
      .ok (matSum [[1, 2], [3, 4]] / ((2 : ℚ) * 2)) ∧
    agg_loss [[1, 2], [3, 4]] (List.replicate 2 (List.replicate 2 1))
        "seq-mean-token-sum-norm" 1 1 =
      agg_loss [[1, 2], [3, 4]] (List.replicate 2 (List.replicate 2 1)) "token-mean" 1 1 :=
  c7_agg_loss_token_mean [[1, 2], [3, 4]] 2 2 1 1 (by decide) (by decide)
    (by decide) (by simp)

/-! ## C4: GAE recurrence, returns, and whitening placement -/

/-- The GAE row recurrence, read positionally: at every position `t`,
`A_t = (R_t + gamma * V_(t+1) - V_t) + gamma * lam * A_(t+1)`, with the
out-of-range values `V_T` and `A_T` equal to `0` (the `getD` default). -/
theorem gaeAdvRow_recurrence (gamma lam : ℚ) :
    ∀ (r v : List ℚ), r.length = v.length → ∀ t, t < r.length →
      (gaeAdvRow gamma lam r v).getD t 0 =
        r.getD t 0 + gamma * v.getD (t + 1) 0 - v.getD t 0 +
          gamma * lam * (gaeAdvRow gamma lam r v).getD (t + 1) 0 := by
  intro r
  induction r with
  | nil => intro v _ t ht; simp at ht
  | cons a rs ih =>
    intro v hlen t ht
    cases v with
    | nil => simp at hlen
    | cons b vs =>
      have hstep : gaeAdvRow gamma lam (a :: rs) (b :: vs) =
          (a + gamma * vs.headD 0 - b +
              gamma * lam * (gaeAdvRow gamma lam rs vs).headD 0)
            :: gaeAdvRow gamma lam rs vs := rfl
      cases t with
      | zero =>
        rw [hstep]
        simp only [List.getD_cons_zero, List.getD_cons_succ, headD_eq_getD]
      | succ s =>
        rw [hstep]
        simp only [List.getD_cons_succ]
        exact ih vs (by simpa using hlen) s (by simpa using ht)

/-- C4: GAE computes the pre-whitening advantages by the backward recurrence
`delta_t = R_t + gamma * V_(t+1) - V_t`, `A_t = delta_t + gamma * lam * A_(t+1)`
(out-of-range values read as 0); the returned returns tensor is the
pre-whitening advantages plus values at every position; whitening is applied
to the advantages output only; and on
`R = [[0,0,1]], mask = [[1,1,1]], gamma = 1, lam = 1, V = [[0,0,0]]`
the pre-whitening advantage and the return are both `[1,1,1]`. -/
theorem c4_gae_recurrence_returns (sqrtFn : ℚ → ℚ)
    (token_level_rewards values eos_mask : Mat) (gamma lam : ℚ) :
    ((compute_gae_advantage_return sqrtFn token_level_rewards values eos_mask gamma lam).2 =
      matAdd (gae_pre_advantages token_level_rewards values gamma lam) values) ∧
    ((compute_gae_advantage_return sqrtFn token_level_rewards values eos_mask gamma lam).1 =
      masked_whiten sqrtFn (gae_pre_advantages token_level_rewards values gamma lam) eos_mask) ∧
    (∀ (r v : List ℚ), r.length = v.length → ∀ t, t < r.length →
      (gaeAdvRow gamma lam r v).getD t 0 =
        r.getD t 0 + gamma * v.getD (t + 1) 0 - v.getD t 0 +
          gamma * lam * (gaeAdvRow gamma lam r v).getD (t + 1) 0) ∧
    (gae_pre_advantages [[0, 0, 1]] [[0, 0, 0]] 1 1 = [[1, 1, 1]] ∧
      (compute_gae_advantage_return sqrtFn [[0, 0, 1]] [[0, 0, 0]] [[1, 1, 1]] 1 1).2 =
        [[1, 1, 1]]) := by
  refine ⟨rfl, rfl, gaeAdvRow_recurrence gamma lam, ?_, ?_⟩
  · norm_num [gae_pre_advantages, gaeAdvRow]
  · norm_num [compute_gae_advantage_return, gae_pre_advantages, gaeAdvRow, matAdd]

/-- Witness for C4: the recurrence conjunct instantiated at the spec's
end-to-end example, position 0. -/
theorem c4_gae_recurrence_returns_witness :
    ([0, 0, 1] : List ℚ).length = ([0, 0, 0] : List ℚ).length ∧
    0 < ([0, 0, 1] : List ℚ).length ∧
    (gaeAdvRow 1 1 [0, 0, 1] [0, 0, 0]).getD 0 0 =
      ([0, 0, 1] : List ℚ).getD 0 0 + 1 * ([0, 0, 0] : List ℚ).getD 1 0 -
        ([0, 0, 0] : List ℚ).getD 0 0 +
        1 * 1 * (gaeAdvRow 1 1 [0, 0, 1] [0, 0, 0]).getD 1 0 :=
  ⟨rfl, by decide,
    (c4_gae_recurrence_returns (fun q => q) [] [] [] 1 1).2.2.1
      [0, 0, 1] [0, 0, 0] rfl 0 (by decide)⟩

/-! ## Bridge lemmas for the grouped estimators -/

/-- The group of row `i` always contains row `i`'s own score, so it is
nonempty: the `ValueError` branch of the group statistics is unreachable
when the groups come from the rows themselves. -/
theorem groupOf_nonempty (index : List ℕ) (scores : List ℚ) (i : ℕ)
    (hi : i < scores.length) :
    groupOf index scores (index.getD i 0) ≠ [] := by
  unfold groupOf
  intro h
  rw [List.map_eq_nil_iff] at h
  have hmem : i ∈ (List.range scores.length).filter
      (fun j => index.getD j 0 == index.getD i 0) := by
    rw [List.mem_filter]
    exact ⟨List.mem_range.mpr hi, by simp⟩
  rw [h] at hmem
  exact List.not_mem_nil i hmem

/-- Total form of the GRPO group statistics on a nonempty group. -/
def grpoStatsTotal (sqrtFn : ℚ → ℚ) (g : List ℚ) : ℚ × ℚ :=
  if g.length = 1 then (0, 1) else (listMean g, sqrtFn (sampleVar g))

/-- On nonempty groups the GRPO statistics never raise and compute the total
form. -/
theorem grpoGroupStats_ok (sqrtFn : ℚ → ℚ) (g : List ℚ) (h : g ≠ []) :
    grpoGroupStats sqrtFn g = .ok (grpoStatsTotal sqrtFn g) := by
  have hl : 0 < g.length := List.length_pos.mpr h
  by_cases h1 : g.length = 1
  · simp [grpoGroupStats, grpoStatsTotal, h1]
  · have h2 : 1 < g.length := by omega
    simp [grpoGroupStats, grpoStatsTotal, h1, h2]

/-- The transformed GRPO score of row `i`, in total form. -/
def grpoScoreTotal (sqrtFn : ℚ → ℚ) (epsilon scale : ℚ) (normStd : Bool)
    (imp : String) (index : List ℕ) (scores : List ℚ) (i : ℕ) : ℚ :=
  let st := grpoStatsTotal sqrtFn (groupOf index scores (index.getD i 0))
  grpoNewScore epsilon scale normStd imp (scores.getD i 0) st.1 st.2

/-- The GRPO score loop never raises and produces the total per-row
transforms. -/
theorem grpoScores_ok (sqrtFn : ℚ → ℚ) (epsilon scale : ℚ) (normStd : Bool)
    (imp : String) (index : List ℕ) (scores : List ℚ) :
    grpoScores sqrtFn epsilon scale normStd imp index scores =
      .ok ((List.range scores.length).map
        (grpoScoreTotal sqrtFn epsilon scale normStd imp index scores)) := by
  unfold grpoScores
  apply mapME_ok
  intro i hi
  have hi' : i < scores.length := List.mem_range.mp hi
  show (grpoGroupStats sqrtFn (groupOf index scores (index.getD i 0)) >>= fun st =>
      Except.ok (grpoNewScore epsilon scale normStd imp (scores.getD i 0) st.1 st.2)) = _
  rw [grpoGroupStats_ok sqrtFn _ (groupOf_nonempty index scores i hi')]
  rfl

/-- The broadcast advantage matrix of GRPO, in total form. -/
def grpoAdvMat (sqrtFn : ℚ → ℚ) (epsilon scale : ℚ) (normStd : Bool)
    (imp : String) (index : List ℕ) (rewards mask : Mat) : Mat :=
  List.zipWith (fun s mrow => mrow.map (fun m => s * m))
    ((List.range (rewards.map List.sum).length).map
      (grpoScoreTotal sqrtFn epsilon scale normStd imp index (rewards.map List.sum)))
    mask

/-- `compute_grpo_outcome_advantage` never raises: it returns the broadcast
total-form advantages twice. -/
theorem compute_grpo_ok (sqrtFn : ℚ → ℚ) (rewards mask : Mat) (index : List ℕ)
    (epsilon : ℚ) (normStd : Bool) (imp : String) (scale : ℚ) :
    compute_grpo_outcome_advantage sqrtFn rewards mask index epsilon normStd imp scale =
      .ok (grpoAdvMat sqrtFn epsilon scale normStd imp index rewards mask,
           grpoAdvMat sqrtFn epsilon scale normStd imp index rewards mask) := by
  simp only [compute_grpo_outcome_advantage, grpoAdvMat]
  rw [grpoScores_ok]
  rfl

/-- Total form of the RLOO group mean on a nonempty group. -/
def rlooMeanTotal (g : List ℚ) : ℚ := if g.length = 1 then 0 else listMean g

/-- On nonempty groups the RLOO group mean never raises. -/
theorem rlooGroupMean_ok (g : List ℚ) (h : g ≠ []) :
    rlooGroupMean g = .ok (rlooMeanTotal g) := by
  have hl : 0 < g.length := List.length_pos.mpr h
  by_cases h1 : g.length = 1
  · simp [rlooGroupMean, rlooMeanTotal, h1]
  · have h2 : 1 < g.length := by omega
    simp [rlooGroupMean, rlooMeanTotal, h1, h2]

/-- The transformed RLOO score of row `i`, in total form. -/
def rlooScoreTotal (index : List ℕ) (scores : List ℚ) (i : ℕ) : ℚ :=
  let g := groupOf index scores (index.getD i 0)
  let k := g.length
  if 1 < k then
    scores.getD i 0 * k / ((k : ℚ) - 1) - rlooMeanTotal g * k / ((k : ℚ) - 1)
  else scores.getD i 0

/-- The RLOO score loop never raises and produces the total per-row
transforms. -/
theorem rlooScores_ok (index : List ℕ) (scores : List ℚ) :
    rlooScores index scores =
      .ok ((List.range scores.length).map (rlooScoreTotal index scores)) := by
  unfold rlooScores
  apply mapME_ok
  intro i hi
  have hi' : i < scores.length := List.mem_range.mp hi
  show (rlooGroupMean (groupOf index scores (index.getD i 0)) >>= fun mean =>
      Except.ok _) = _
  rw [rlooGroupMean_ok _ (groupOf_nonempty index scores i hi')]
  rfl

/-- The broadcast advantage matrix of RLOO, in total form. -/
def rlooAdvMat (index : List ℕ) (rewards mask : Mat) : Mat :=
  List.zipWith (fun s mrow => mrow.map (fun m => s * m))
    ((List.range (rewards.map List.sum).length).map
      (rlooScoreTotal index (rewards.map List.sum)))
    mask

/-- `compute_rloo_outcome_advantage` never raises: it returns the broadcast
total-form advantages twice. -/
theorem compute_rloo_ok (rewards mask : Mat) (index : List ℕ) (epsilon : ℚ) :
    compute_rloo_outcome_advantage rewards mask index epsilon =
      .ok (rlooAdvMat index rewards mask, rlooAdvMat index rewards mask) := by
  simp only [compute_rloo_outcome_advantage, rlooAdvMat]
  rw [rlooScores_ok]
  rfl

/-- REINFORCE++ returns rows have the length of the reward row. -/
theorem rppRetRow_fst_length (gamma : ℚ) :
    ∀ (r m : List ℚ), ((rppRetRow gamma r m).1).length = r.length := by
  intro r
  induction r with
  | nil => intro m; rfl
  | cons a rs ih => intro m; simp [rppRetRow, ih]

/-! ## C1: mask semantics across estimators -/

/-- An entry of a broadcast-times-mask matrix vanishes wherever the mask
entry vanishes. -/
theorem broadcast_entry_zero (ns : List ℚ) (mask : Mat) (i t : ℕ)
    (hlen : i < ns.length) (him : i < mask.length)
    (ht : t < (mask.getD i []).length)
    (hmz : (mask.getD i []).getD t 0 = 0) :
    ((List.zipWith (fun s mrow => mrow.map (fun m => s * m)) ns mask).getD i []).getD t 0
      = 0 := by
  have hiz : i < (List.zipWith (fun s mrow => mrow.map (fun m => s * m)) ns mask).length := by
    rw [List.length_zipWith]
    exact lt_min hlen him
  rw [List.getD_eq_getElem _ _ hiz, List.getElem_zipWith]
  have hmi : mask.getD i [] = mask[i] := List.getD_eq_getElem _ _ him
  rw [hmi] at ht hmz
  have htm : t < ((mask[i]).map (fun m => ns[i] * m)).length := by
    rw [List.length_map]; exact ht
  rw [List.getD_eq_getElem _ _ htm, List.getElem_map,
    List.getD_eq_getElem _ _ ht] at *
  rw [hmz, mul_zero]

/-- An entry of an elementwise product vanishes wherever the second factor
vanishes. -/
theorem matElemMul_entry_zero (W M : Mat) (i t : ℕ)
    (hiw : i < W.length) (him : i < M.length)
    (htw : t < (W.getD i []).length) (htm : t < (M.getD i []).length)
    (hmz : (M.getD i []).getD t 0 = 0) :
    ((matElemMul W M).getD i []).getD t 0 = 0 := by
  have hiz : i < (matElemMul W M).length := by
    unfold matElemMul
    rw [List.length_zipWith]
    exact lt_min hiw him
  unfold matElemMul at hiz ⊢
  rw [List.getD_eq_getElem _ _ hiz, List.getElem_zipWith]
  have hwi : W.getD i [] = W[i] := List.getD_eq_getElem _ _ hiw
  have hmi : M.getD i [] = M[i] := List.getD_eq_getElem _ _ him
  rw [hwi] at htw
  rw [hmi] at htm hmz
  have htz : t < (List.zipWith (fun x y => x * y) W[i] M[i]).length := by
    rw [List.length_zipWith]
    exact lt_min htw htm
  rw [List.getD_eq_getElem _ _ htz, List.getElem_zipWith,
    List.getD_eq_getElem _ _ htm] at *
  rw [hmz, mul_zero]

/-- Whitening does not change the number of rows. -/
theorem masked_whiten_length (sqrtFn : ℚ → ℚ) (x mask : Mat) :
    (masked_whiten sqrtFn x mask).length = x.length := by
  simp [masked_whiten]

/-- Whitening does not change the length of any row. -/
theorem masked_whiten_row_length (sqrtFn : ℚ → ℚ) (x mask : Mat) (i : ℕ)
    (hi : i < x.length) :
    ((masked_whiten sqrtFn x mask).getD i []).length = (x.getD i []).length := by
  simp only [masked_whiten]
  rw [List.getD_eq_getElem _ _ (by rw [List.length_map]; exact hi), List.getElem_map,
    List.length_map, List.getD_eq_getElem _ _ hi]

/-- The REINFORCE++ returns row `i` has the length of reward row `i`. -/
theorem rpp_returns_row_length (gamma : ℚ) (rewards mask : Mat) (i : ℕ)
    (hi : i < rewards.length) (him : i < mask.length) :
    ((List.zipWith (fun r m => (rppRetRow gamma r m).1) rewards mask).getD i []).length =
      (rewards.getD i []).length := by
  have hiz : i < (List.zipWith (fun r m => (rppRetRow gamma r m).1) rewards mask).length := by
    rw [List.length_zipWith]
    exact lt_min hi him
  rw [List.getD_eq_getElem _ _ hiz, List.getElem_zipWith, rppRetRow_fst_length,
    List.getD_eq_getElem _ _ hi]

/-- C1 (amended): for GRPO and RLOO, positions where the response mask is 0
are zero in both output tensors; for REINFORCE++ the advantages are zero at
masked positions.  (The original claim fails for the GAE and ReMax outputs
and for the REINFORCE++ returns, and masked positions do enter the scalar
row scores: see the counterexample.) -/
theorem c1_mask_semantics_amended (sqrtFn : ℚ → ℚ) (rewards mask : Mat)
    (index : List ℕ) (eps scale gamma : ℚ) (normStd : Bool) (imp : String)
    (i t : ℕ)
    (hi : i < rewards.length) (him : i < mask.length)
    (ht : t < (mask.getD i []).length)
    (hmz : (mask.getD i []).getD t 0 = 0) :
    (∀ p, compute_grpo_outcome_advantage sqrtFn rewards mask index eps normStd imp scale =
        .ok p → (p.1.getD i []).getD t 0 = 0 ∧ (p.2.getD i []).getD t 0 = 0) ∧
    (∀ p, compute_rloo_outcome_advantage rewards mask index eps = .ok p →
        (p.1.getD i []).getD t 0 = 0 ∧ (p.2.getD i []).getD t 0 = 0) ∧
    (t < (rewards.getD i []).length →
      (((compute_reinforce_plus_plus_outcome_advantage sqrtFn rewards mask gamma).1).getD
          i []).getD t 0 = 0) := by
  refine ⟨?_, ?_, ?_⟩
  · intro p hp
    rw [compute_grpo_ok] at hp
    injection hp with hp
    rw [← hp]
    constructor <;>
      exact broadcast_entry_zero _ mask i t (by simpa using hi) him ht hmz
  · intro p hp
    rw [compute_rloo_ok] at hp
    injection hp with hp
    rw [← hp]
    constructor <;>
      exact broadcast_entry_zero _ mask i t (by simpa using hi) him ht hmz
  · intro ht2
    simp only [compute_reinforce_plus_plus_outcome_advantage]
    apply matElemMul_entry_zero
    · rw [masked_whiten_length, List.length_zipWith]
      exact lt_min hi him
    · exact him
    · rw [masked_whiten_row_length _ _ _ i (by rw [List.length_zipWith]; exact lt_min hi him)]
      rw [rpp_returns_row_length gamma rewards mask i hi him]
      exact ht2
    · exact ht
    · exact hmz

/-- Counterexample for C1 as stated: GAE returns and ReMax
advantages/returns keep nonzero values at mask-0 positions, and GRPO
statistics change when only a masked reward entry changes. -/
theorem c1_mask_semantics_counterexample :
    ((compute_gae_advantage_return (fun q => q) [[0, 1]] [[0, 0]] [[1, 0]] 1 1).2 =
      [[1, 1]]) ∧
    (([[(1 : ℚ), 0]].getD 0 []).getD 1 0 = 0) ∧ ((1 : ℚ) ≠ 0) ∧
    ((compute_remax_outcome_advantage [[1, 1]] [0] [[0, 1]]).1 = [[1, 1]]) ∧
    ((compute_remax_outcome_advantage [[1, 1]] [0] [[0, 1]]).2 = [[1, 1]]) ∧
    (compute_grpo_outcome_advantage (fun q => q) [[1, 0], [0, 0]] [[1, 0], [1, 0]]
        [0, 0] 0 false "x" 1 ≠
      compute_grpo_outcome_advantage (fun q => q) [[1, 1], [0, 0]] [[1, 0], [1, 0]]
        [0, 0] 0 false "x" 1) := by
  refine ⟨?_, by decide, by norm_num, ?_, ?_, ?_⟩
  · norm_num [compute_gae_advantage_return, gae_pre_advantages, gaeAdvRow, matAdd]
  · norm_num [compute_remax_outcome_advantage, reverseCumsum]
  · norm_num [compute_remax_outcome_advantage, reverseCumsum]
  · rw [compute_grpo_ok, compute_grpo_ok]
    intro h
    injection h with h
    have h1 := congrArg (fun q : Mat × Mat => (q.1.getD 0 []).getD 0 0) h
    simp only at h1
    norm_num [grpoAdvMat, grpoScoreTotal, grpoStatsTotal, grpoNewScore, groupOf,
      listMean, List.range_succ] at h1
    rw [if_neg (by decide : ¬("x" : String) = "v1"),
      if_neg (by decide : ¬("x" : String) = "v1")] at h1
    norm_num at h1

/-- Witness for C1 (amended) at a concrete batch: the REINFORCE++ advantage
at a masked position is zero. -/
theorem c1_mask_semantics_witness :
    0 < ([[(5 : ℚ)]] : Mat).length ∧
    (([[(0 : ℚ)]].getD 0 []).getD 0 0 = 0) ∧
    (((compute_reinforce_plus_plus_outcome_advantage (fun q => q)
        [[5]] [[0]] 1).1.getD 0 []).getD 0 0 = 0) := by
  refine ⟨by decide, by decide, ?_⟩
  exact (c1_mask_semantics_amended (fun q => q) [[5]] [[0]] [0] 0 1 1 false "x" 0 0
    (by decide) (by decide) (by decide) (by decide)).2.2 (by decide)

/-! ## C2: singleton groups -/

/-- Row `i` of a broadcast-times-mask matrix is the mask row scaled by the
row's scalar. -/
theorem broadcast_row (ns : List ℚ) (mask : Mat) (i : ℕ)
    (hlen : i < ns.length) (him : i < mask.length) :
    (List.zipWith (fun s mrow => mrow.map (fun m => s * m)) ns mask).getD i [] =
      (mask.getD i []).map (fun m => ns.getD i 0 * m) := by
  have hiz : i < (List.zipWith (fun s mrow => mrow.map (fun m => s * m)) ns mask).length := by
    rw [List.length_zipWith]
    exact lt_min hlen him
  rw [List.getD_eq_getElem _ _ hiz, List.getElem_zipWith,
    List.getD_eq_getElem _ _ him, List.getD_eq_getElem _ _ hlen]

/-- Reading a mapped range list at a position below the bound gives the
function value. -/
theorem getD_range_map (f : ℕ → ℚ) (n i : ℕ) (hi : i < n) :
    ((List.range n).map f).getD i 0 = f i := by
  rw [List.getD_eq_getElem _ _ (by simpa using hi), List.getElem_map, List.getElem_range]

/-- The scalar score of row `i` is the sum of reward row `i`. -/
theorem scores_getD (rewards : Mat) (i : ℕ) (hi : i < rewards.length) :
    (rewards.map List.sum).getD i 0 = (rewards.getD i []).sum := by
  rw [List.getD_eq_getElem (rewards.map List.sum) 0 (by simpa using hi),
    List.getElem_map, List.getD_eq_getElem _ _ hi]

/-- C2 (amended): a singleton group gets the GRPO fallback statistics
`mean = 0, std = 1` (so the std-normalized branch divides by `1 + eps`,
never by zero) and its std-normalized advantage row is
`score/(1+eps) * mask`; the RLOO advantage and the GRPO mean-only advantage
of a singleton row equal the raw score broadcast over the mask (not 0 in
general); a group with zero members raises a fatal error in both
estimators. -/
theorem c2_singleton_groups_amended (sqrtFn : ℚ → ℚ) (rewards mask : Mat)
    (index : List ℕ) (eps scale : ℚ) (imp : String) (i : ℕ)
    (hi : i < rewards.length) (him : i < mask.length)
    (hsing : (groupOf index (rewards.map List.sum) (index.getD i 0)).length = 1) :
    (∀ s : ℚ, grpoGroupStats sqrtFn [s] = .ok (0, 1)) ∧
    (∃ A, compute_grpo_outcome_advantage sqrtFn rewards mask index eps true imp scale
        = .ok (A, A) ∧
      A.getD i [] =
        (mask.getD i []).map (fun m => (rewards.getD i []).sum / (1 + eps) * m)) ∧
    (∃ A, compute_grpo_outcome_advantage sqrtFn rewards mask index eps false "none" scale
        = .ok (A, A) ∧
      A.getD i [] = (mask.getD i []).map (fun m => (rewards.getD i []).sum * m)) ∧
    (∃ A, compute_rloo_outcome_advantage rewards mask index eps = .ok (A, A) ∧
      A.getD i [] = (mask.getD i []).map (fun m => (rewards.getD i []).sum * m)) ∧
    (∃ e, grpoGroupStats sqrtFn [] = .error e) ∧
    (∃ e, rlooGroupMean [] = .error e) := by
  have hlen : i < ((List.range (rewards.map List.sum).length).map
      (grpoScoreTotal sqrtFn eps scale true imp index (rewards.map List.sum))).length := by
    simpa using hi
  refine ⟨?_, ?_, ?_, ?_, ⟨_, rfl⟩, ⟨_, rfl⟩⟩
  · intro s
    simp [grpoGroupStats]
  · refine ⟨_, compute_grpo_ok sqrtFn rewards mask index eps true imp scale, ?_⟩
    rw [grpoAdvMat, broadcast_row _ mask i (by simpa using hi) him,
      getD_range_map _ _ i (by simpa using hi)]
    rw [grpoScoreTotal]
    simp only [grpoStatsTotal, hsing, if_pos, if_true]
    rw [grpoNewScore]
    simp only [if_true]
    rw [sub_zero, scores_getD rewards i hi]
  · refine ⟨_, compute_grpo_ok sqrtFn rewards mask index eps false "none" scale, ?_⟩
    rw [grpoAdvMat, broadcast_row _ mask i (by simpa using hi) him,
      getD_range_map _ _ i (by simpa using hi)]
    rw [grpoScoreTotal]
    simp only [grpoStatsTotal, hsing, if_pos, if_true]
    rw [grpoNewScore]
    simp only [Bool.false_eq_true, if_false,
      show (("none" : String) == "v1") = false from rfl]
    rw [sub_zero, scores_getD rewards i hi]
  · refine ⟨_, compute_rloo_ok rewards mask index eps, ?_⟩
    rw [rlooAdvMat, broadcast_row _ mask i (by simpa using hi) him,
      getD_range_map _ _ i (by simpa using hi)]
    rw [rlooScoreTotal]
    simp only [hsing]
    rw [if_neg (by omega), scores_getD rewards i hi]

/-- Counterexample for C2 as stated: a singleton group with raw score 2 gets
RLOO advantage 2 (not 0), and GRPO mean-only advantage 2 (not 0). -/
theorem c2_singleton_groups_counterexample :
    compute_rloo_outcome_advantage [[2]] [[1]] [0] (1 / 1000000) = .ok ([[2]], [[2]]) ∧
    ((2 : ℚ) ≠ 0) ∧
    compute_grpo_outcome_advantage (fun q => q) [[2]] [[1]] [0] (1 / 1000000)
      false "none" (1 / 4) = .ok ([[2]], [[2]]) := by
  refine ⟨?_, by norm_num, ?_⟩
  · rw [compute_rloo_ok]
    norm_num [rlooAdvMat, rlooScoreTotal, rlooMeanTotal, groupOf, List.range_succ]
  · rw [compute_grpo_ok]
    norm_num [grpoAdvMat, grpoScoreTotal, grpoStatsTotal, grpoNewScore, groupOf,
      List.range_succ, show (("none" : String) == "v1") = false from rfl]

/-- Witness for C2 (amended) at a concrete singleton batch with raw score
3. -/
theorem c2_singleton_groups_witness :
    0 < ([[(3 : ℚ)]] : Mat).length ∧
    (groupOf [0] (([[(3 : ℚ)]] : Mat).map List.sum) (([0] : List ℕ).getD 0 0)).length = 1 ∧
    (∃ A, compute_rloo_outcome_advantage [[(3 : ℚ)]] [[1]] [0] 1 = .ok (A, A) ∧
      A.getD 0 [] = (([[(1 : ℚ)]] : Mat).getD 0 []).map
        (fun m => (([[(3 : ℚ)]] : Mat).getD 0 []).sum * m)) := by
  refine ⟨by decide, by simp [groupOf], ?_⟩
  exact (c2_singleton_groups_amended (fun q => q) [[3]] [[1]] [0] 1 1 "v1" 0
    (by decide) (by decide) (by simp [groupOf])).2.2.2.1

/-! ## C5: RLOO group sums -/

/-- Sums of elementwise differences split. -/
theorem sum_map_sub (l : List ℕ) (f g : ℕ → ℚ) :
    (l.map (fun x => f x - g x)).sum = (l.map f).sum - (l.map g).sum := by
  induction l with
  | nil => simp
  | cons a l ih =>
    simp only [List.map_cons, List.sum_cons, ih]
    ring

/-- C5 (amended): for every group of size `k ≥ 2`, the per-row scalar RLOO
advantages of the group's rows sum to exactly 0 — the leave-one-out
rescaling is mean-preserving.  (For a singleton group the scalar advantage
is the raw score, so the sum is not 0 in general: see the
counterexample.) -/
theorem c5_rloo_group_sum_amended (rewards : Mat) (index : List ℕ) (idx : ℕ)
    (hk : 2 ≤ (groupOf index (rewards.map List.sum) idx).length)
    (ns : List ℚ)
    (hns : rlooScores index (rewards.map List.sum) = .ok ns) :
    (((List.range (rewards.map List.sum).length).filter
        (fun j => index.getD j 0 == idx)).map (fun j => ns.getD j 0)).sum = 0 := by
  rw [rlooScores_ok] at hns
  injection hns with hns
  subst hns
  have hstep : ∀ j ∈ (List.range (rewards.map List.sum).length).filter
      (fun j => index.getD j 0 == idx),
      ((List.range (rewards.map List.sum).length).map
        (rlooScoreTotal index (rewards.map List.sum))).getD j 0 =
      (rewards.map List.sum).getD j 0 *
          ((groupOf index (rewards.map List.sum) idx).length : ℚ) /
          (((groupOf index (rewards.map List.sum) idx).length : ℚ) - 1) -
        listMean (groupOf index (rewards.map List.sum) idx) *
          ((groupOf index (rewards.map List.sum) idx).length : ℚ) /
          (((groupOf index (rewards.map List.sum) idx).length : ℚ) - 1) := by
    intro j hj
    rw [List.mem_filter] at hj
    have hj1 : j < (rewards.map List.sum).length := List.mem_range.mp hj.1
    have hj2 : index.getD j 0 = idx := by simpa using hj.2
    rw [getD_range_map _ _ j hj1, rlooScoreTotal, hj2]
    rw [if_pos (by omega), rlooMeanTotal, if_neg (by omega)]
  rw [List.map_congr_left hstep, sum_map_sub]
  simp only [mul_div_assoc]
  rw [List.sum_map_mul_right, List.map_const', List.sum_replicate]
  rw [show ((List.range (rewards.map List.sum).length).filter
      (fun j => index.getD j 0 == idx)).map
        (fun j => (rewards.map List.sum).getD j 0) =
      groupOf index (rewards.map List.sum) idx from rfl]
  rw [show ((List.range (rewards.map List.sum).length).filter
      (fun j => index.getD j 0 == idx)).length =
      (groupOf index (rewards.map List.sum) idx).length from
    (by rw [groupOf]; exact (List.length_map _ _).symm)]
  rw [nsmul_eq_mul, listMean]
  have hk2 : (2 : ℚ) ≤ ((groupOf index (rewards.map List.sum) idx).length : ℚ) := by
    exact_mod_cast hk
  have h0 : ((groupOf index (rewards.map List.sum) idx).length : ℚ) ≠ 0 := by
    intro h
    rw [h] at hk2
    linarith
  have h1 : ((groupOf index (rewards.map List.sum) idx).length : ℚ) - 1 ≠ 0 := by
    intro h
    have : ((groupOf index (rewards.map List.sum) idx).length : ℚ) = 1 := by linarith
    rw [this] at hk2
    linarith
  field_simp
  ring

/-- Counterexample for C5 as stated: a singleton group (k = 1) keeps its raw
score 2 as the scalar advantage, so the group sum is 2, not 0. -/
theorem c5_rloo_group_sum_counterexample :
    rlooScores [0] (([[(2 : ℚ)]] : Mat).map List.sum) = .ok [2] ∧
    ((((List.range (([[(2 : ℚ)]] : Mat).map List.sum).length).filter
        (fun j => ([0] : List ℕ).getD j 0 == 0)).map
        (fun j => ([(2 : ℚ)] : List ℚ).getD j 0)).sum = 2) ∧
    ((2 : ℚ) ≠ 0) := by
  refine ⟨?_, ?_, by norm_num⟩
  · rw [rlooScores_ok]
    norm_num [rlooScoreTotal, rlooMeanTotal, groupOf, List.range_succ]
  · norm_num [List.range_succ]

/-- Witness for C5 (amended) on a concrete group of two rows with scores 1
and 3: the scalar advantages are -2 and 2 and sum to 0. -/
theorem c5_rloo_group_sum_witness :
    2 ≤ (groupOf [0, 0] (([[(1 : ℚ)], [3]] : Mat).map List.sum) 0).length ∧
    (((List.range (([[(1 : ℚ)], [3]] : Mat).map List.sum).length).filter
        (fun j => ([0, 0] : List ℕ).getD j 0 == 0)).map
        (fun j => ([(-2 : ℚ), 2] : List ℚ).getD j 0)).sum = 0 := by
  have hns : rlooScores [0, 0] (([[(1 : ℚ)], [3]] : Mat).map List.sum) = .ok [-2, 2] := by
    rw [rlooScores_ok]
    norm_num [rlooScoreTotal, rlooMeanTotal, groupOf, listMean, List.range_succ]
  refine ⟨by norm_num [groupOf, List.range_succ], ?_⟩
  exact c5_rloo_group_sum_amended [[1], [3]] [0, 0] 0
    (by norm_num [groupOf, List.range_succ]) [-2, 2] hns

/-! ## C6: clip fraction is monotone as the clip range shrinks -/

/-- Zipping two zips of the same lists fuses into one zip. -/
theorem zipWith_zipWith_same {α β γ δ ε : Type} (f : γ → δ → ε) (g : α → β → γ)
    (h : α → β → δ) :
    ∀ (as : List α) (bs : List β),
      List.zipWith f (List.zipWith g as bs) (List.zipWith h as bs) =
        List.zipWith (fun a b => f (g a b) (h a b)) as bs := by
  intro as
  induction as with
  | nil => intro bs; simp
  | cons a as ih =>
    intro bs
    cases bs with
    | nil => simp
    | cons b bs => simp [ih]

/-- Matrix version of `zipWith_zipWith_same`. -/
theorem matZip_same (f g h : ℚ → ℚ → ℚ) (A B : Mat) :
    List.zipWith (List.zipWith f) (List.zipWith (List.zipWith g) A B)
      (List.zipWith (List.zipWith h) A B) =
      List.zipWith (List.zipWith (fun a b => f (g a b) (h a b))) A B := by
  rw [zipWith_zipWith_same (List.zipWith f) (List.zipWith g) (List.zipWith h) A B]
  have hfun : (fun (ra rb : List ℚ) =>
      List.zipWith f (List.zipWith g ra rb) (List.zipWith h ra rb)) =
      fun ra rb => List.zipWith (fun a b => f (g a b) (h a b)) ra rb := by
    funext ra rb
    exact zipWith_zipWith_same f g h ra rb
  rw [hfun]

/-- Elementwise product against a mapped matrix fuses the map into the
binary operation. -/
theorem matElemMul_map_right (u : ℚ → ℚ) (N R : Mat) :
    matElemMul N (R.map (fun row => row.map u)) =
      List.zipWith (List.zipWith (fun a b => a * u b)) N R := by
  unfold matElemMul
  rw [List.zipWith_map_right]
  have hfun : (fun (a b : List ℚ) =>
      List.zipWith (fun x y => x * y) a (b.map u)) =
      fun a b => List.zipWith (fun x y => x * u y) a b := by
    funext a b
    rw [List.zipWith_map_right]
  rw [hfun]

/-- Pointwise monotonicity of the clipped-branch indicator: shrinking the
clip range can only turn the indicator on, never off. -/
theorem clipIndicator_mono (c cp : ℚ) (h0 : 0 < cp) (hcc : cp ≤ c) (na r : ℚ) :
    (if na * r < na * rclamp r (1 - c) (1 + c) then (1 : ℚ) else 0) ≤
    (if na * r < na * rclamp r (1 - cp) (1 + cp) then (1 : ℚ) else 0) := by
  by_cases h : na * r < na * rclamp r (1 - c) (1 + c)
  · rw [if_pos h]
    have hlt : na * r < na * rclamp r (1 - cp) (1 + cp) := by
      rcases lt_trichotomy na 0 with hn | hn | hn
      · have h1 : rclamp r (1 - c) (1 + c) < r := (mul_lt_mul_left_of_neg hn).mp h
        unfold rclamp at h1
        have h2 : 1 + c < r := by
          rcases min_lt_iff.mp h1 with hmm | hmm
          · exact absurd hmm (not_lt.mpr (le_max_left r (1 - c)))
          · exact hmm
        have h3 : rclamp r (1 - cp) (1 + cp) < r := by
          unfold rclamp
          exact lt_of_le_of_lt (min_le_right _ _) (by linarith)
        exact (mul_lt_mul_left_of_neg hn).mpr h3
      · rw [hn] at h
        simp at h
      · have h1 : r < rclamp r (1 - c) (1 + c) := lt_of_mul_lt_mul_left h (le_of_lt hn)
        unfold rclamp at h1
        rcases lt_min_iff.mp h1 with ⟨hma, hmb⟩
        have h2 : r < 1 - c := by
          rcases lt_max_iff.mp hma with hmm | hmm
          · exact absurd hmm (lt_irrefl r)
          · exact hmm
        have h3 : r < rclamp r (1 - cp) (1 + cp) := by
          unfold rclamp
          exact lt_min_iff.mpr ⟨lt_max_iff.mpr (Or.inr (by linarith)), by linarith⟩
        exact mul_lt_mul_of_pos_left h3 hn
    rw [if_pos hlt]
  · rw [if_neg h]
    split <;> norm_num

/-- Row-level sum monotonicity under a pointwise-monotone transform and a
nonnegative mask row. -/
theorem sum_zipWith3_mono (φ ψ : ℚ → ℚ → ℚ) (hmono : ∀ a b, φ a b ≤ ψ a b) :
    ∀ (A B C : List ℚ), (∀ x ∈ C, 0 ≤ x) →
      (List.zipWith (fun x y => x * y) (List.zipWith φ A B) C).sum ≤
      (List.zipWith (fun x y => x * y) (List.zipWith ψ A B) C).sum := by
  intro A
  induction A with
  | nil => intro B C _; simp
  | cons a A ih =>
    intro B C hC
    cases B with
    | nil => simp
    | cons b B =>
      cases C with
      | nil => simp
      | cons cc C =>
        simp only [List.zipWith_cons_cons, List.sum_cons]
        exact add_le_add
          (mul_le_mul_of_nonneg_right (hmono a b) (hC cc (List.mem_cons_self cc C)))
          (ih B C (fun x hx => hC x (List.mem_cons_of_mem cc hx)))

/-- Matrix-level sum monotonicity under a pointwise-monotone transform and a
nonnegative mask. -/
theorem matSum_zip3_mono (φ ψ : ℚ → ℚ → ℚ) (hmono : ∀ a b, φ a b ≤ ψ a b) :
    ∀ (A B C : Mat), (∀ row ∈ C, ∀ x ∈ row, 0 ≤ x) →
      matSum (matElemMul (List.zipWith (List.zipWith φ) A B) C) ≤
      matSum (matElemMul (List.zipWith (List.zipWith ψ) A B) C) := by
  intro A
  induction A with
  | nil => intro B C _; simp [matSum, matElemMul]
  | cons a A ih =>
    intro B C hC
    cases B with
    | nil => simp [matSum, matElemMul]
    | cons b B =>
      cases C with
      | nil => simp [matSum, matElemMul]
      | cons crow C =>
        simp only [matElemMul, List.zipWith_cons_cons, matSum, List.map_cons,
          List.sum_cons]
        exact add_le_add
          (sum_zipWith3_mono φ ψ hmono a b crow
            (fun x hx => hC crow (List.mem_cons_self crow C) x hx))
          (ih B C (fun row hrow x hx => hC row (List.mem_cons_of_mem crow hrow) x hx))

/-- The total of a matrix with nonnegative entries is nonnegative. -/
theorem matSum_nonneg (C : Mat) (h : ∀ row ∈ C, ∀ x ∈ row, 0 ≤ x) :
    0 ≤ matSum C := by
  unfold matSum
  apply List.sum_nonneg
  intro a ha
  rcases List.mem_map.mp ha with ⟨row, hrow, rfl⟩
  exact List.sum_nonneg (h row hrow)

/-- Dividing both sides of an inequality by a common nonnegative denominator
preserves it (with the `ℚ` convention `x / 0 = 0`). -/
theorem div_le_div_nonneg_den (a b d : ℚ) (hab : a ≤ b) (hd : 0 ≤ d) :
    a / d ≤ b / d := by
  rcases eq_or_lt_of_le hd with h | h
  · rw [← h]
    simp
  · exact (div_le_div_iff_of_pos_right h).mpr hab

/-- Masked means of pointwise-monotone zips are monotone for nonnegative
masks. -/
theorem masked_mean_zip3_mono (φ ψ : ℚ → ℚ → ℚ) (hmono : ∀ a b, φ a b ≤ ψ a b)
    (A B C : Mat) (hC : ∀ row ∈ C, ∀ x ∈ row, 0 ≤ x) :
    masked_mean (List.zipWith (List.zipWith φ) A B) C ≤
    masked_mean (List.zipWith (List.zipWith ψ) A B) C := by
  unfold masked_mean
  exact div_le_div_nonneg_den _ _ _ (matSum_zip3_mono φ ψ hmono A B C hC)
    (matSum_nonneg C hC)

/-- Explicit form of `compute_policy_loss` with a shared clip range and
`token-mean` aggregation: loss, clip fraction and KL metric as masked
means. -/
theorem compute_policy_loss_token_mean (expFn : ℚ → ℚ) (old lp adv mask : Mat)
    (c s : ℚ) :
    compute_policy_loss expFn old lp adv mask (some c) none none "token-mean" s =
      .ok (masked_mean (matMax2
            (matElemMul (matNeg adv) ((matSub lp old).map (fun row => row.map expFn)))
            (matElemMul (matNeg adv)
              (((matSub lp old).map (fun row => row.map expFn)).map
                (fun row => row.map (fun r => rclamp r (1 - c) (1 + c)))))) mask,
        masked_mean (gtInd
            (matElemMul (matNeg adv)
              (((matSub lp old).map (fun row => row.map expFn)).map
                (fun row => row.map (fun r => rclamp r (1 - c) (1 + c)))))
            (matElemMul (matNeg adv) ((matSub lp old).map (fun row => row.map expFn))))
          mask,
        masked_mean (matNeg (matSub lp old)) mask) := rfl

/-- C6: for fixed log-prob and advantage inputs, the clip fraction reported
by `compute_policy_loss` is monotonically non-decreasing as the shared clip
range shrinks toward 0: if `0 < cp ≤ c` then the clip fraction at `cp` is at
least the clip fraction at `c` (for a 0/1 — or any nonnegative — mask). -/
theorem c6_clipfrac_monotone (expFn : ℚ → ℚ) (old lp adv mask : Mat) (c cp s : ℚ)
    (h0 : 0 < cp) (hcc : cp ≤ c)
    (hmask : ∀ row ∈ mask, ∀ x ∈ row, 0 ≤ x)
    (t1 t2 : ℚ × ℚ × ℚ)
    (h1 : compute_policy_loss expFn old lp adv mask (some c) none none "token-mean" s
      = .ok t1)
    (h2 : compute_policy_loss expFn old lp adv mask (some cp) none none "token-mean" s
      = .ok t2) :
    t1.2.1 ≤ t2.2.1 := by
  rw [compute_policy_loss_token_mean] at h1 h2
  injection h1 with h1
  injection h2 with h2
  rw [← h1, ← h2]
  have key : ∀ cc : ℚ,
      gtInd (matElemMul (matNeg adv)
          (((matSub lp old).map (fun row => row.map expFn)).map
            (fun row => row.map (fun r => rclamp r (1 - cc) (1 + cc)))))
        (matElemMul (matNeg adv) ((matSub lp old).map (fun row => row.map expFn))) =
      List.zipWith (List.zipWith (fun a b =>
          if a * b < a * rclamp b (1 - cc) (1 + cc) then (1 : ℚ) else 0))
        (matNeg adv) ((matSub lp old).map (fun row => row.map expFn)) := by
    intro cc
    rw [matElemMul_map_right]
    unfold gtInd matElemMul
    rw [matZip_same]
  show masked_mean (gtInd _ _) mask ≤ masked_mean (gtInd _ _) mask
  rw [key c, key cp]
  exact masked_mean_zip3_mono _ _
    (fun a b => clipIndicator_mono c cp h0 hcc a b) _ _ mask hmask

/-- Witness for C6 at a concrete input: with ratio 3 and advantage 1, both
clip ranges 1 and 1/2 clip, so the clip fractions are 1 and 1 ≤ 1. -/
theorem c6_clipfrac_monotone_witness :
    0 < (1 / 2 : ℚ) ∧ (1 / 2 : ℚ) ≤ 1 ∧
    compute_policy_loss (fun _ => 3) [[0]] [[0]] [[1]] [[1]]
      (some 1) none none "token-mean" 1 = .ok (-2, 1, 0) ∧
    compute_policy_loss (fun _ => 3) [[0]] [[0]] [[1]] [[1]]
      (some (1 / 2)) none none "token-mean" 1 = .ok (-3 / 2, 1, 0) ∧
    ((-2, (1 : ℚ), (0 : ℚ)) : ℚ × ℚ × ℚ).2.1 ≤
      ((-3 / 2, (1 : ℚ), (0 : ℚ)) : ℚ × ℚ × ℚ).2.1 := by
  have hmask : ∀ row ∈ ([[(1 : ℚ)]] : Mat), ∀ x ∈ row, 0 ≤ x := by
    intro row hrow x hx
    rw [List.mem_singleton] at hrow
    subst hrow
    rw [List.mem_singleton] at hx
    subst hx
    norm_num
  have heq1 : compute_policy_loss (fun _ => (3 : ℚ)) [[0]] [[0]] [[1]] [[1]]
      (some 1) none none "token-mean" 1 = .ok (-2, 1, 0) := by
    rw [compute_policy_loss_token_mean]
    norm_num [masked_mean, matSum, matElemMul, matMax2, gtInd, matNeg, matSub,
      rclamp, min_def, max_def]
  have heq2 : compute_policy_loss (fun _ => (3 : ℚ)) [[0]] [[0]] [[1]] [[1]]
      (some (1 / 2)) none none "token-mean" 1 = .ok (-3 / 2, 1, 0) := by
    rw [compute_policy_loss_token_mean]
    norm_num [masked_mean, matSum, matElemMul, matMax2, gtInd, matNeg, matSub,
      rclamp, min_def, max_def]
  exact ⟨by norm_num, by norm_num, heq1, heq2,
    c6_clipfrac_monotone (fun _ => 3) [[0]] [[0]] [[1]] [[1]] 1 (1 / 2) 1
      (by norm_num) (by norm_num) hmask (-2, 1, 0) (-3 / 2, 1, 0) heq1 heq2⟩
